import Mathlib

/-!
Verification of the `atlimiter` token-bucket rate limiter (`atlimiter.go`).

The Go source is embedded shallowly as a sequential state machine.  The
limiter state is a record of its four fields; each public operation takes
the current clock reading `now` (Unix nanoseconds, as in
`time.Now().UnixNano()`) as an explicit argument and returns its result
together with the updated state.  In the sequential model every
compare-and-swap succeeds on its first attempt, so the CAS loops of the
source collapse to a single read-test-write.

`capacityFactor` is a `float64` in Go; it is modelled as a rational
number, and the truncating conversion `uint64(float64(maxRPS)*factor)`
(non-negative after the clamp to ≥ 1.0) as `Nat.floor` of the exact
rational product.  The refill arithmetic
`uint64(float64(maxRPS) * (float64(now-prev)/1e9))` is likewise modelled
exactly: for a positive elapsed time it is the natural-number division
`maxRPS * (now - prev) / 1000000000`.  All quantities stay far below
2^64 in every statement below, so `uint64` wrap-around never occurs and
the fields are modelled as `Nat` / `Int`.
-/

namespace Atlimiter

/-- The `ATLimiter` struct of `atlimiter.go`: `maxRPS` and `capacity` are
`uint64` fields, `tokens` is an `atomic.Uint64`, `lastRefill` an
`atomic.Int64` holding Unix nanoseconds. -/
structure ATLimiter where
  maxRPS : Nat
  capacity : Nat
  tokens : Nat
  lastRefill : Int
  deriving Repr, DecidableEq

/-- The capacity derivation shared by `NewLimiter` and `SetMaxRPS`:
clamp `capacityFactor` up to 1.0, then
`max(max(uint64(float64(maxRPS)*capacityFactor), 1), maxRPS)`. -/
def deriveCapacity (maxRPS : Nat) (capacityFactor : ℚ) : Nat :=
  let cf := if capacityFactor < 1 then (1 : ℚ) else capacityFactor
  max (max ⌊(maxRPS : ℚ) * cf⌋₊ 1) maxRPS

/-- `NewLimiter(maxRPS, capacityFactor)`: the constructor.  `now` is the
value of `time.Now().UnixNano()` at construction time. -/
def NewLimiter (maxRPS : Nat) (capacityFactor : ℚ) (now : Int) : ATLimiter :=
  let capacity := deriveCapacity maxRPS capacityFactor
  { maxRPS := maxRPS, capacity := capacity, tokens := capacity, lastRefill := now }

/-- `calculateTokenRefill`: lazy refill.  The Go code computes
`elapsed = float64(now-previousRefill)/1e9` and proceeds only when
`elapsed > 0`, i.e. when `now > previousRefill`.  Sequentially the CAS on
`lastRefill` succeeds, so `lastRefill` is advanced to `now`; then
`newTokens = uint64(float64(maxRPS)*elapsed)`, which for a positive
elapsed time is `maxRPS * (now - previousRefill) / 1e9` with truncating
division; when `newTokens > 0` the token count becomes
`min(current + newTokens, capacity)`. -/
def calculateTokenRefill (r : ATLimiter) (now : Int) : ATLimiter :=
  let previousRefill := r.lastRefill
  if now - previousRefill > 0 then
    let newTokens := r.maxRPS * (now - previousRefill).toNat / 1000000000
    if newTokens > 0 then
      { r with lastRefill := now, tokens := min (r.tokens + newTokens) r.capacity }
    else
      { r with lastRefill := now }
  else
    r

/-- `Allow()`: unlimited fast path when `maxRPS == 0`; otherwise refill,
then take one token if any is available (the CAS loop of the source,
collapsed to its sequential behaviour). -/
def Allow (r : ATLimiter) (now : Int) : Bool × ATLimiter :=
  if r.maxRPS = 0 then (true, r)
  else
    let r := calculateTokenRefill r now
    if r.tokens = 0 then (false, r)
    else (true, { r with tokens := r.tokens - 1 })

/-- `TryAllow(tokensCount)`: unlimited fast path, trivial success for 0,
static rejection when `tokensCount > capacity`, otherwise refill and take
`tokensCount` tokens if available. -/
def TryAllow (r : ATLimiter) (tokensCount : Nat) (now : Int) : Bool × ATLimiter :=
  if r.maxRPS = 0 then (true, r)
  else if tokensCount = 0 then (true, r)
  else if tokensCount > r.capacity then (false, r)
  else
    let r := calculateTokenRefill r now
    if r.tokens < tokensCount then (false, r)
    else (true, { r with tokens := r.tokens - tokensCount })

/-- `Available()`: refill, then return the current token count. -/
def Available (r : ATLimiter) (now : Int) : Nat × ATLimiter :=
  let r := calculateTokenRefill r now
  (r.tokens, r)

/-- `SetMaxRPS(newMaxRPS, newCapacityFactor)`: recompute and publish
`maxRPS` and `capacity`; if the observed token count exceeds the new
capacity, reduce it by a single CAS (which succeeds sequentially). -/
def SetMaxRPS (r : ATLimiter) (newMaxRPS : Nat) (newCapacityFactor : ℚ) : ATLimiter :=
  let newCapacity := deriveCapacity newMaxRPS newCapacityFactor
  let r := { r with maxRPS := newMaxRPS, capacity := newCapacity }
  if r.tokens > newCapacity then { r with tokens := newCapacity } else r

/-- `GetMaxRPS()`. -/
def GetMaxRPS (r : ATLimiter) : Nat := r.maxRPS

/-- `GetCapacity()`. -/
def GetCapacity (r : ATLimiter) : Nat := r.capacity

/-- A call against the limiter: one of the token-affecting public
operations (`SetMaxRPS` excluded), with its clock reading. -/
inductive Op where
  | allow (now : Int)
  | tryAllow (n : Nat) (now : Int)
  | available (now : Int)
  deriving Repr, DecidableEq

/-- State after one call. -/
def applyOp (r : ATLimiter) : Op → ATLimiter
  | .allow now => (Allow r now).2
  | .tryAllow n now => (TryAllow r n now).2
  | .available now => (Available r now).2

/-- State after a sequence of calls. -/
def runOps (r : ATLimiter) : List Op → ATLimiter
  | [] => r
  | op :: ops => runOps (applyOp r op) ops

/-- Results and final state of a sequence of `Allow` calls issued at the
given clock readings. -/
def runAllows (r : ATLimiter) : List Int → List Bool × ATLimiter
  | [] => ([], r)
  | now :: rest =>
    let (b, r') := Allow r now
    let (bs, r'') := runAllows r' rest
    (b :: bs, r'')

/-! ### Helper lemmas -/

theorem calculateTokenRefill_capacity (r : ATLimiter) (now : Int) :
    (calculateTokenRefill r now).capacity = r.capacity := by
  simp only [calculateTokenRefill]
  split_ifs <;> rfl

theorem calculateTokenRefill_maxRPS (r : ATLimiter) (now : Int) :
    (calculateTokenRefill r now).maxRPS = r.maxRPS := by
  simp only [calculateTokenRefill]
  split_ifs <;> rfl

theorem calculateTokenRefill_tokens_le (r : ATLimiter) (now : Int)
    (h : r.tokens ≤ r.capacity) :
    (calculateTokenRefill r now).tokens ≤ r.capacity := by
  simp only [calculateTokenRefill]
  split_ifs <;> simp [h]

theorem calculateTokenRefill_self (r : ATLimiter) :
    calculateTokenRefill r r.lastRefill = r := by
  simp [calculateTokenRefill]

theorem newLimiter_10_2 : NewLimiter 10 2 0 = ⟨10, 20, 20, 0⟩ := by
  simp only [NewLimiter, deriveCapacity]
  norm_num

theorem applyOp_capacity (r : ATLimiter) (op : Op) :
    (applyOp r op).capacity = r.capacity := by
  cases op <;>
    simp only [applyOp, Allow, TryAllow, Available] <;>
    (try split_ifs) <;>
    simp [calculateTokenRefill_capacity]

theorem applyOp_tokens_le (r : ATLimiter) (op : Op) (h : r.tokens ≤ r.capacity) :
    (applyOp r op).tokens ≤ (applyOp r op).capacity := by
  rw [applyOp_capacity]
  cases op <;> simp only [applyOp, Allow, TryAllow, Available] <;> (try split_ifs) <;>
    first
      | exact h
      | exact calculateTokenRefill_tokens_le r _ h
      | (exact le_trans (Nat.sub_le _ _) (calculateTokenRefill_tokens_le r _ h))

theorem runOps_inv (ops : List Op) (r : ATLimiter) (h : r.tokens ≤ r.capacity) :
    (runOps r ops).tokens ≤ (runOps r ops).capacity := by
  induction ops generalizing r with
  | nil => exact h
  | cons op ops ih =>
    simp only [runOps]
    exact ih _ (by simpa [applyOp_capacity] using applyOp_tokens_le r op h)

/-! ### Claims -/

/-- C1.  Sequential exact consumption: constructing with `maxRPS = 10` and
`capacityFactor = 2.0` gives capacity 20; issuing 20 `Allow()` calls at the
construction instant (no elapsed time) returns true every time, and the
21st `Allow()` call returns false, leaving the token count at 0. -/
theorem exact_consumption :
    (NewLimiter 10 2 0).capacity = 20 ∧
    (runAllows (NewLimiter 10 2 0) (List.replicate 20 0)).1 = List.replicate 20 true ∧
    (Allow (runAllows (NewLimiter 10 2 0) (List.replicate 20 0)).2 0).1 = false ∧
    (Allow (runAllows (NewLimiter 10 2 0) (List.replicate 20 0)).2 0).2.tokens = 0 := by
  rw [newLimiter_10_2]
  decide

/-- C2.  Bounded-tokens invariant: for every sequence of `Allow`,
`TryAllow` and `Available` calls starting from a freshly constructed
limiter (no `SetMaxRPS`), the token count satisfies
`0 ≤ tokens ≤ capacity` after every operation. -/
theorem bounded_tokens_invariant (maxRPS : Nat) (cf : ℚ) (t : Int) (ops : List Op) :
    0 ≤ (runOps (NewLimiter maxRPS cf t) ops).tokens ∧
    (runOps (NewLimiter maxRPS cf t) ops).tokens
      ≤ (runOps (NewLimiter maxRPS cf t) ops).capacity :=
  ⟨Nat.zero_le _, runOps_inv ops _ le_rfl⟩

/-- C5.  Capacity derivation: construction and `SetMaxRPS` clamp the
capacity factor up to 1.0 and then set
`capacity = max(max(⌊maxRPS·factor⌋, 1), maxRPS)`; the result is always at
least 1 and at least `maxRPS`; `maxRPS = 100` with factor 1.5 yields 150,
and with factor 0.2 yields 100. -/
theorem capacity_derivation (maxRPS : Nat) (cf : ℚ) (t : Int) (r : ATLimiter) :
    (NewLimiter maxRPS cf t).capacity
      = max (max ⌊(maxRPS : ℚ) * (if cf < 1 then 1 else cf)⌋₊ 1) maxRPS ∧
    (SetMaxRPS r maxRPS cf).capacity
      = max (max ⌊(maxRPS : ℚ) * (if cf < 1 then 1 else cf)⌋₊ 1) maxRPS ∧
    1 ≤ (NewLimiter maxRPS cf t).capacity ∧
    maxRPS ≤ (NewLimiter maxRPS cf t).capacity ∧
    (NewLimiter 100 1.5 t).capacity = 150 ∧
    (NewLimiter 100 0.2 t).capacity = 100 := by
  refine ⟨rfl, ?_, ?_, ?_, ?_, ?_⟩
  · simp only [SetMaxRPS, deriveCapacity]
    split_ifs <;> rfl
  · simp only [NewLimiter, deriveCapacity]
    omega
  · simp only [NewLimiter, deriveCapacity]
    omega
  · simp only [NewLimiter, deriveCapacity]
    norm_num
  · simp only [NewLimiter, deriveCapacity]
    norm_num

/-- C6.  Sub-token quantization: when the elapsed time is strictly
positive but shorter than `1/maxRPS` seconds (i.e.
`maxRPS · elapsedNanoseconds < 10^9`), the refill adds zero tokens yet
still advances `lastRefill` to `now`, discarding the sub-token elapsed
time. -/
theorem sub_token_quantization (r : ATLimiter) (now : Int)
    (hpos : 0 < now - r.lastRefill)
    (hsub : r.maxRPS * (now - r.lastRefill).toNat < 1000000000) :
    (calculateTokenRefill r now).tokens = r.tokens ∧
    (calculateTokenRefill r now).lastRefill = now := by
  simp only [calculateTokenRefill, hpos, if_pos, Nat.div_eq_of_lt hsub]
  simp

theorem sub_token_quantization_witness :
    (0 : Int) < 1000 - (0 : Int) ∧
    (10 : Nat) * ((1000 : Int) - (0 : Int)).toNat < 1000000000 ∧
    (calculateTokenRefill ⟨10, 20, 5, 0⟩ 1000).tokens = 5 ∧
    (calculateTokenRefill ⟨10, 20, 5, 0⟩ 1000).lastRefill = 1000 :=
  ⟨by decide, by decide,
    (sub_token_quantization ⟨10, 20, 5, 0⟩ 1000 (by decide) (by decide)).1,
    (sub_token_quantization ⟨10, 20, 5, 0⟩ 1000 (by decide) (by decide)).2⟩

theorem allow_of_maxRPS_zero (r : ATLimiter) (h : r.maxRPS = 0) (now : Int) :
    Allow r now = (true, r) := by
  simp [Allow, h]

theorem runAllows_of_maxRPS_zero (nows : List Int) (r : ATLimiter) (h : r.maxRPS = 0) :
    runAllows r nows = (List.replicate nows.length true, r) := by
  induction nows generalizing r with
  | nil => rfl
  | cons now rest ih =>
    simp [runAllows, allow_of_maxRPS_zero r h now, ih r h, List.replicate]

/-- C7.  Unlimited mode: a limiter constructed with `maxRPS = 0` returns
true from every `Allow()` call and its state is unchanged by the whole
sequence, for every sequence of calls and every clock reading. -/
theorem unlimited_mode (cf : ℚ) (t : Int) (nows : List Int) :
    (runAllows (NewLimiter 0 cf t) nows).1 = List.replicate nows.length true ∧
    (runAllows (NewLimiter 0 cf t) nows).2 = NewLimiter 0 cf t := by
  rw [runAllows_of_maxRPS_zero nows _ rfl]
  exact ⟨rfl, rfl⟩

/-- C10.  Implicit unlimited-mode edge case: with `maxRPS = 0` the derived
capacity is 1; `TryAllow(n)` returns true for every `n` (the `maxRPS = 0`
check precedes the `n > capacity` rejection) without touching the state;
and `Available()` is not short-circuited: it runs the refill (which adds
nothing since `maxRPS = 0`) and returns the stored token count, which is 1
immediately after construction. -/
theorem unlimited_tryAllow_available (cf : ℚ) (t : Int) (n : Nat) (now : Int) :
    (NewLimiter 0 cf t).capacity = 1 ∧
    TryAllow (NewLimiter 0 cf t) n now = (true, NewLimiter 0 cf t) ∧
    (Available (NewLimiter 0 cf t) now).1 = 1 := by
  have hcap : (NewLimiter 0 cf t).capacity = 1 := by
    simp only [NewLimiter, deriveCapacity]
    split <;> simp
  have htok : (NewLimiter 0 cf t).tokens = 1 := hcap
  refine ⟨hcap, by simp [TryAllow, NewLimiter], ?_⟩
  simp only [Available, calculateTokenRefill]
  split_ifs with h1 h2
  · simp only [NewLimiter] at h2
    simp at h2
  · exact htok
  · exact htok

/-- C3.  Bulk admission boundary: with `maxRPS > 0` and the bounded-tokens
invariant, `TryAllow(n)` issued at the current instant with `n` equal to
the available token count succeeds and leaves 0 tokens; with `n` one
greater it fails and leaves the token count unchanged; and with
`n > capacity` it fails regardless of the current token count and clock. -/
theorem tryAllow_bulk_boundary (r : ATLimiter) (h0 : r.maxRPS ≠ 0)
    (hinv : r.tokens ≤ r.capacity) :
    ((TryAllow r r.tokens r.lastRefill).1 = true ∧
     (TryAllow r r.tokens r.lastRefill).2.tokens = 0) ∧
    ((TryAllow r (r.tokens + 1) r.lastRefill).1 = false ∧
     (TryAllow r (r.tokens + 1) r.lastRefill).2.tokens = r.tokens) ∧
    (∀ n : Nat, ∀ now : Int, n > r.capacity → (TryAllow r n now).1 = false) := by
  refine ⟨?_, ?_, ?_⟩
  · simp only [TryAllow, h0, if_false, if_neg h0]
    by_cases hz : r.tokens = 0
    · simp [hz]
    · rw [if_neg hz, if_neg (by omega), calculateTokenRefill_self]
      simp
  · simp only [TryAllow, if_neg h0, Nat.succ_ne_zero, if_false]
    by_cases hc : r.tokens + 1 > r.capacity
    · simp [hc]
    · rw [if_neg hc, calculateTokenRefill_self, if_pos (by omega)]
      exact ⟨rfl, rfl⟩
  · intro n now hn
    have hnz : ¬(n = 0) := by omega
    simp [TryAllow, if_neg h0, if_neg hnz, hn]

theorem tryAllow_bulk_boundary_witness :
    ((TryAllow ⟨10, 20, 5, 0⟩ 5 0).1 = true ∧
     (TryAllow ⟨10, 20, 5, 0⟩ 5 0).2.tokens = 0) ∧
    ((TryAllow ⟨10, 20, 5, 0⟩ 6 0).1 = false ∧
     (TryAllow ⟨10, 20, 5, 0⟩ 6 0).2.tokens = 5) ∧
    (TryAllow ⟨10, 20, 5, 0⟩ 21 0).1 = false := by
  have h := tryAllow_bulk_boundary ⟨10, 20, 5, 0⟩ (by decide) (by decide)
  exact ⟨h.1, h.2.1, h.2.2 21 0 (by decide)⟩

/-- C4, counterexample.  The claim says: bucket drained to 0, at least one
second elapsed, then `Available()` equals `min(capacity, maxRPS)`.  With
`maxRPS = 10`, `capacityFactor = 2.0` (capacity 20), the bucket drained by
`TryAllow(20)` at time 0, and 2 seconds elapsed, `Available()` returns 20,
not `min(20, 10) = 10`: the refill adds `⌊maxRPS · elapsed⌋ = 20` tokens,
clamped only at capacity. -/
theorem refill_after_elapsed_counterexample :
    (TryAllow (NewLimiter 10 2 0) 20 0).2.tokens = 0 ∧
    0 < (TryAllow (NewLimiter 10 2 0) 20 0).2.maxRPS ∧
    (2000000000 : Int) - (TryAllow (NewLimiter 10 2 0) 20 0).2.lastRefill ≥ 1000000000 ∧
    (Available (TryAllow (NewLimiter 10 2 0) 20 0).2 2000000000).1
      ≠ min (TryAllow (NewLimiter 10 2 0) 20 0).2.capacity
          (TryAllow (NewLimiter 10 2 0) 20 0).2.maxRPS := by
  rw [newLimiter_10_2]
  decide

/-- C4, amended.  If exactly 1 second elapses after the bucket was drained
to 0, `Available()` returns `min(capacity, maxRPS)`: the refill adds
exactly `maxRPS` tokens, clamped at capacity. -/
theorem refill_after_one_second (r : ATLimiter) (h0 : 0 < r.maxRPS)
    (hd : r.tokens = 0) (now : Int) (h1 : now - r.lastRefill = 1000000000) :
    (Available r now).1 = min r.capacity r.maxRPS := by
  have e2 : r.maxRPS * ((1000000000 : Int)).toNat / 1000000000 = r.maxRPS := by
    have e1 : ((1000000000 : Int)).toNat = 1000000000 := rfl
    rw [e1]
    omega
  simp only [Available, calculateTokenRefill, h1]
  rw [if_pos (by norm_num), if_pos (by omega)]
  simp [e2, hd, Nat.min_comm]

theorem refill_after_one_second_witness :
    (Available ⟨10, 20, 0, 0⟩ 1000000000).1 = min 20 10 :=
  refill_after_one_second ⟨10, 20, 0, 0⟩ (by decide) rfl 1000000000 (by decide)

theorem available_le_capacity (r : ATLimiter) (now : Int) (h : r.tokens ≤ r.capacity) :
    (Available r now).1 ≤ r.capacity :=
  calculateTokenRefill_tokens_le r now h

/-- C8.  Reconfiguration shrink (sequential): when the new derived
capacity is below the current token count, `SetMaxRPS` reduces the token
count to the new capacity (the single CAS succeeds), so a subsequent
`Available()` call returns a value at most the new capacity. -/
theorem reconfiguration_shrink (r : ATLimiter) (m : Nat) (cf : ℚ) (now : Int)
    (h : deriveCapacity m cf < r.tokens) :
    (SetMaxRPS r m cf).tokens = (SetMaxRPS r m cf).capacity ∧
    (Available (SetMaxRPS r m cf) now).1 ≤ (SetMaxRPS r m cf).capacity := by
  have hset : SetMaxRPS r m cf
      = ⟨m, deriveCapacity m cf, deriveCapacity m cf, r.lastRefill⟩ := by
    simp only [SetMaxRPS]
    rw [if_pos h]
  rw [hset]
  exact ⟨rfl, available_le_capacity _ now le_rfl⟩

theorem reconfiguration_shrink_witness :
    (SetMaxRPS ⟨10, 20, 20, 0⟩ 0 1).tokens = (SetMaxRPS ⟨10, 20, 20, 0⟩ 0 1).capacity ∧
    (Available (SetMaxRPS ⟨10, 20, 20, 0⟩ 0 1) 0).1 ≤ (SetMaxRPS ⟨10, 20, 20, 0⟩ 0 1).capacity :=
  reconfiguration_shrink ⟨10, 20, 20, 0⟩ 0 1 0
    (by simp only [deriveCapacity]; norm_num)

end Atlimiter
